import Mathlib

/-!
Shallow embedding of the core of `dvr_manager.py` (enigma2-dvr-manager):
the data model (`Recording`, `Download`, `Entry`), the group-key
normalizer `make_groupkey`, the persistent-store operations
(`db_load_rec`, `db_save_rec`, `db_remove_rec`, mastered loads), the
reconciliation pipeline (`from_database`, `from_meta_file`,
`process_one`, `process_recordings`), the ranking engine
(`sort_global_entrylist` and its key construction), and the batch
mutation helper (`update_attribute`).

Python strings are Lean `String`s; Python ints are `Int` (`Nat` for the
group count, which only ever grows from 0 by 1); the sqlite tables are
lists of rows; fatal assertions are `Except` errors; the file system
visible to one run is a list of `ScanFile` records carrying exactly the
data the program reads from disk (file size, companion meta lines,
video-probe results).
-/

namespace Dvr

/-- One row/in-memory object of the `Recording` variant
    (class `Recording`, dvr_manager.py lines 55-99).  A database row is
    represented with `basepath := none`; the Python object leaves the
    attribute unassigned until a factory sets it, and every load
    assigns it before use. -/
structure Recording where
  basepath        : Option String
  file_basename   : String
  file_size       : Int
  epg_channel     : String
  epg_title       : String
  epg_description : String
  video_duration  : Int
  video_height    : Int
  video_width     : Int
  video_fps       : Int
  is_good         : Bool
  is_dropped      : Bool
  is_mastered     : Bool
  groupkey        : String
  comment         : String
  timestamp       : String
deriving Repr, DecidableEq

/-- One row/in-memory object of the `Download` variant
    (class `Download`, dvr_manager.py lines 101-135). -/
structure Download where
  basepath       : Option String
  file_basename  : String
  file_extension : String
  file_size      : Int
  dl_source      : String
  dl_title       : String
  dl_description : String
  video_duration : Int
  video_height   : Int
  video_width    : Int
  video_fps      : Int
  groupkey       : String
  comment        : String
deriving Repr, DecidableEq

/-- The heterogeneous entry type (`class Entry`); the Python classes
    `Recording` and `Download` are its only subclasses. -/
inductive Entry where
  | record   : Recording → Entry
  | download : Download → Entry
deriving Repr, DecidableEq

/-- Common accessor: `e.groupkey` (both variants carry the field). -/
def Entry.groupkey : Entry → String
  | .record r   => r.groupkey
  | .download d => d.groupkey

/-- Common accessor: `e.file_size`. -/
def Entry.file_size : Entry → Int
  | .record r   => r.file_size
  | .download d => d.file_size

/-- Common accessor: `e.video_duration`. -/
def Entry.video_duration : Entry → Int
  | .record r   => r.video_duration
  | .download d => d.video_duration

/-- Common accessor: `e.video_height`. -/
def Entry.video_height : Entry → Int
  | .record r   => r.video_height
  | .download d => d.video_height

/-- Common accessor: `e.file_basename` (the identity of either variant). -/
def Entry.file_basename : Entry → String
  | .record r   => r.file_basename
  | .download d => d.file_basename

/-- Python `==` on entries (`Recording.__eq__` lines 90-93,
    `Download.__eq__` lines 126-129): equality holds exactly between two
    objects of the same variant with equal `file_basename`; a `Recording`
    never equals a `Download` (the `isinstance` guard fails in both
    directions, so Python falls back to `False`). -/
def entryEq : Entry → Entry → Bool
  | .record a,   .record b   => a.file_basename == b.file_basename
  | .download a, .download b => a.file_basename == b.file_basename
  | _,           _           => false

/-- `SortOrder` enum (lines 45-50). -/
inductive SortOrder where
  | ASC
  | DESC
deriving Repr, DecidableEq

/-! ## GroupKeyNormalizer: `make_groupkey` (lines 243-246) -/

/-- Python `str.lower()` restricted to the alphabet this program's
    group keys involve: ASCII letters plus the German letters appearing
    in `GROUPKEY_TRANSLATIONS`.  (Full Unicode case mapping is not
    modelled; no claim exercises it.) -/
def pyLower (c : Char) : Char :=
  if c = 'Ä' then 'ä'
  else if c = 'Ö' then 'ö'
  else if c = 'Ü' then 'ü'
  else if c = 'ẞ' then 'ß'
  else if 'A' ≤ c && c ≤ 'Z' then Char.ofNat (c.toNat + 32)
  else c

/-- `str.translate(GROUPKEY_TRANSLATIONS)` on one character
    (lines 38-43): the four German letters expand to ASCII digraphs,
    everything else is unchanged. -/
def translateChar (c : Char) : List Char :=
  if c = 'ä' then ['a', 'e']
  else if c = 'ö' then ['o', 'e']
  else if c = 'ü' then ['u', 'e']
  else if c = 'ß' then ['s', 's']
  else [c]

/-- The character class kept by `re.sub(r"[^a-z0-9]+", "", _)`. -/
def isKeyChar (c : Char) : Bool :=
  ('a' ≤ c && c ≤ 'z') || ('0' ≤ c && c ≤ '9')

/-- `make_groupkey` (lines 243-246): lower-case, apply the translation
    table, then delete every character that is not an ASCII lower-case
    letter or digit. -/
def make_groupkey (line : String) : String :=
  String.mk ((((line.data.map pyLower).map translateChar).flatten).filter
    (fun c => isKeyChar c))

/-- A kept character is a fixed point of every stage of the pipeline. -/
theorem keyChar_fixed (c : Char) (h : isKeyChar c = true) :
    pyLower c = c ∧ translateChar c = [c] := by
  simp only [isKeyChar, Bool.or_eq_true, Bool.and_eq_true, decide_eq_true_eq] at h
  have hAZ : ('A' ≤ c && c ≤ 'Z') = false := by
    refine Bool.eq_false_iff.mpr (fun hb => ?_)
    simp only [Bool.and_eq_true, decide_eq_true_eq] at hb
    rcases h with ⟨h1, _⟩ | ⟨_, h2⟩
    · exact absurd (le_trans h1 hb.2) (by decide)
    · exact absurd (le_trans hb.1 h2) (by decide)
  have hne : c ≠ 'Ä' ∧ c ≠ 'Ö' ∧ c ≠ 'Ü' ∧ c ≠ 'ẞ' ∧
      c ≠ 'ä' ∧ c ≠ 'ö' ∧ c ≠ 'ü' ∧ c ≠ 'ß' := by
    rcases h with ⟨h1, h2⟩ | ⟨h1, h2⟩ <;>
      refine ⟨?_, ?_, ?_, ?_, ?_, ?_, ?_, ?_⟩ <;>
      · intro hc
        rw [hc] at h2
        exact absurd h2 (by decide)
  obtain ⟨n1, n2, n3, n4, n5, n6, n7, n8⟩ := hne
  exact ⟨by simp [pyLower, n1, n2, n3, n4, hAZ],
         by simp [translateChar, n5, n6, n7, n8]⟩

/-- Helper: a list each of whose elements maps to its own singleton is a
    fixed point of the flattened map. -/
theorem flatten_map_singleton (l : List Char)
    (h : ∀ c ∈ l, translateChar c = [c]) :
    (l.map translateChar).flatten = l := by
  induction l with
  | nil => rfl
  | cons c t ih =>
    simp only [List.map_cons, List.flatten_cons]
    rw [h c (List.mem_cons_self c t), ih (fun x hx => h x (List.mem_cons_of_mem c hx))]
    rfl

/-- Helper: a list of kept characters passes the whole normalization
    pipeline unchanged. -/
theorem groupkey_fixed_list (l : List Char) (h : ∀ c ∈ l, isKeyChar c = true) :
    (((l.map pyLower).map translateChar).flatten).filter (fun c => isKeyChar c) = l := by
  rw [List.map_congr_left (fun c hc => (keyChar_fixed c (h c hc)).1), List.map_id',
    flatten_map_singleton l (fun c hc => (keyChar_fixed c (h c hc)).2),
    List.filter_eq_self.mpr h]

/-- C5: the group-key normalizer is total (it is a Lean function) and
    deterministic, and idempotent: `make_groupkey (make_groupkey x) =
    make_groupkey x` for every string; moreover the three spec examples
    "Tagesschau", "tagesschau" and "Tages-schau!" all normalize to the
    same key. -/
theorem make_groupkey_total_idempotent :
    (∀ x : String, make_groupkey (make_groupkey x) = make_groupkey x) ∧
    make_groupkey "Tagesschau" = make_groupkey "tagesschau" ∧
    make_groupkey "tagesschau" = make_groupkey "Tages-schau!" := by
  refine ⟨fun x => ?_, by decide, by decide⟩
  have hmem : ∀ c ∈ (make_groupkey x).data, isKeyChar c = true := by
    intro c hc
    unfold make_groupkey at hc
    exact List.of_mem_filter hc
  exact congrArg String.mk (groupkey_fixed_list (make_groupkey x).data hmem)

/-- List-level prefix test (Python `str.startswith`, and the anchored
    literal match of `re.sub(rf"^...")`). -/
def charsIsPrefixOf : List Char → List Char → Bool
  | [], _ => true
  | _ :: _, [] => false
  | a :: as, b :: bs => a == b && charsIsPrefixOf as bs

/-- Python `pre` is a prefix of `s`. -/
def pyStartsWith (pre s : String) : Bool :=
  charsIsPrefixOf pre.data s.data

/-- The whitespace class of Python `str.strip()` (the ASCII part; the
    program's meta lines only carry trailing newlines and spaces). -/
def isPySpace (c : Char) : Bool :=
  c = ' ' || c = '\t' || c = '\n' || c = '\r' || c = '\x0b' || c = '\x0c'

/-- Python `str.strip()`: drop leading and trailing whitespace. -/
def pyStrip (s : String) : String :=
  String.mk (((s.data.dropWhile isPySpace).reverse.dropWhile isPySpace).reverse)

/-- Python `str.split(sep)` worker: scan left to right, cutting at each
    non-overlapping occurrence of the (nonempty) separator.  The fuel is
    the input length; every recursive call consumes at least one input
    character, so the fuel never runs out. -/
def pySplitAux (sep : List Char) : Nat → List Char → List Char → List (List Char)
  | _, [], acc => [acc.reverse]
  | 0, l, acc => [acc.reverse ++ l]
  | Nat.succ fuel, c :: cs, acc =>
    if charsIsPrefixOf sep (c :: cs) then
      acc.reverse :: pySplitAux sep fuel ((c :: cs).drop sep.length) []
    else
      pySplitAux sep fuel cs (c :: acc)

/-- Python `s.split(sep)` for a nonempty separator. -/
def pySplitOn (sep : String) (s : String) : List String :=
  (pySplitAux sep.data s.data.length s.data []).map String.mk

/-! ## RankingEngine: `sort_global_entrylist` (lines 269-309) -/

/-- The per-groupkey aggregate dictionary value built in the first loop
    of `sort_global_entrylist` (lines 270-284).  Field defaults mirror
    the `dict.get(key, default)` fallbacks; the three `any_*` fields are
    only ever updated for `Recording` entries and the sort lambdas read
    them through `.get(_, False)`, which the defaults model. -/
structure GroupMeta where
  max_size     : Int  := 0
  sum_size     : Int  := 0
  count        : Nat  := 0
  any_drop     : Bool := false
  any_good     : Bool := false
  any_mastered : Bool := false
deriving Repr, DecidableEq

/-- One iteration of the aggregate loop body (lines 273-284) on the
    dictionary value for `e.groupkey`. -/
def updMeta (m : GroupMeta) (e : Entry) : GroupMeta :=
  let base : GroupMeta :=
    { m with max_size := max m.max_size e.file_size,
             sum_size := m.sum_size + e.file_size,
             count := m.count + 1 }
  match e with
  | .record r =>
    { base with any_drop := m.any_drop || r.is_dropped,
                any_good := m.any_good || r.is_good,
                any_mastered := m.any_mastered || r.is_mastered }
  | .download _ => base

/-- One iteration of the aggregate loop on the whole dictionary
    (`groupkey_aggregates[e.groupkey] = meta`). -/
def aggStep (m : String → Option GroupMeta) (e : Entry) : String → Option GroupMeta :=
  fun k => if k = e.groupkey then some (updMeta ((m e.groupkey).getD {}) e) else m k

/-- The `groupkey_aggregates` dictionary after the first loop of
    `sort_global_entrylist`, as a lookup function (`none` = key absent). -/
def buildAgg (l : List Entry) : String → Option GroupMeta :=
  l.foldl aggStep (fun _ => none)

/-- Python `<` on strings: lexicographic comparison of code points.
    (This is the same relation as Lean's `String.lt`, defined here as a
    structurally recursive boolean so that concrete comparisons reduce.) -/
def charListLt : List Char → List Char → Bool
  | [], []            => false
  | [], _ :: _        => true
  | _ :: _, []        => false
  | a :: as, b :: bs  =>
    if a < b then true else if b < a then false else charListLt as bs

/-- Python `s < t` on strings. -/
def pyStrLt (s t : String) : Bool := charListLt s.data t.data

/-- Python `s <= t` on strings (a total order, so `s <= t` iff not
    `t < s`). -/
def pyStrLe (s t : String) : Bool := !(pyStrLt t s)

/-- The first component of a Python sort-key tuple.  Within one call of
    `sort_global_entrylist` all primaries share one constructor, so the
    cross-constructor cases of the comparison below (where Python would
    raise `TypeError`) are never exercised.  `avg_size`, a Python float
    division of two ints, is modelled as the exact rational. -/
inductive Prim where
  | s : String → Prim
  | b : Bool → Prim
  | i : Int → Prim
  | q : ℚ → Prim
deriving Repr, DecidableEq

/-- Strict comparison of primaries (Python `<` on the tuple heads).
    Cross-constructor comparisons (unreachable, see `Prim`) are `false`. -/
def primLt : Prim → Prim → Bool
  | .s a, .s b => pyStrLt a b
  | .b a, .b b => !a && b
  | .i a, .i b => decide (a < b)
  | .q a, .q b => decide (a < b)
  | _,    _    => false

/-- Python `e.timestamp.split()[1]`: the time-of-day part of a
    `"YYYY-MM-DD HH:MM"` timestamp.  `str.split()` splits on whitespace
    runs and drops empties; timestamps only ever contain single spaces. -/
def timeOfDay (ts : String) : String :=
  (((pySplitOn " " ts).filter (fun t => t ≠ "")).getD 1 "")

/-- The keys of the `lambdas` dictionary (lines 286-306): the fixed set
    of recognized sort criteria (also exactly the GUI radio metadata).
    `lambdas[order_by]` with any other string raises `KeyError`, so a
    sort specification is one of these. -/
inductive Criterion where
  | title | channel | date | time
  | attr_good | attr_mastered | attr_dropped
  | duration | resolution | size
  | max_size | sum_size | avg_size | count
  | any_drop | any_good | any_mastered
deriving Repr, DecidableEq

/-- The primary sort value of the lambda chosen by `order_by`
    (lines 286-306), given the aggregate dictionary.  Aggregate lookups
    `groupkey_aggregates[e.groupkey]` use `getD {}`; the default is
    unreachable because the dictionary is built from the very list being
    sorted (proved in `aggregates_wellformed`). -/
def primKey (c : Criterion) (agg : String → Option GroupMeta) (e : Entry) : Prim :=
  match c with
  | .title         => .s e.groupkey
  | .channel       => .s (match e with | .record r => r.epg_channel | .download d => d.dl_source)
  | .date          => .s (match e with | .record r => r.timestamp | .download _ => "")
  | .time          => .s (match e with | .record r => timeOfDay r.timestamp | .download _ => "")
  | .attr_good     => .b (!(match e with | .record r => r.is_good | .download _ => true))
  | .attr_mastered => .b (!(match e with | .record r => r.is_mastered | .download _ => true))
  | .attr_dropped  => .b (!(match e with | .record r => r.is_dropped | .download _ => false))
  | .duration      => .i e.video_duration
  | .resolution    => .i e.video_height
  | .size          => .i e.file_size
  | .max_size      => .i ((agg e.groupkey).getD {}).max_size
  | .sum_size      => .i ((agg e.groupkey).getD {}).sum_size
  | .avg_size      => .q ((((agg e.groupkey).getD {}).sum_size : ℚ) /
                          ((((agg e.groupkey).getD {}).count : Nat) : ℚ))
  | .count         => .i (((agg e.groupkey).getD {}).count : Nat)
  | .any_drop      => .b (!((agg e.groupkey).getD {}).any_drop)
  | .any_good      => .b (!((agg e.groupkey).getD {}).any_good)
  | .any_mastered  => .b (!((agg e.groupkey).getD {}).any_mastered)

/-- The full sort key of an entry: every lambda in the table returns the
    pair `(primary, e.groupkey)`.  (For `title` the Python key is the
    bare string `e.groupkey`; the pair `(groupkey, groupkey)` induces
    the identical order and identical ties.) -/
def sortKey (c : Criterion) (agg : String → Option GroupMeta) (e : Entry) : Prim × String :=
  (primKey c agg e, e.groupkey)

/-- Python `<=` on key tuples: lexicographic on (primary, groupkey). -/
def keyLe (k k' : Prim × String) : Bool :=
  primLt k.1 k'.1 || (decide (k.1 = k'.1) && pyStrLe k.2 k'.2)

/-- The element order `list.sort(key=..., reverse=...)` sorts by:
    ascending is `key a <= key b`; `reverse=True` compares the whole
    key tuples the other way round while keeping the sort stable. -/
def entryLe (c : Criterion) (agg : String → Option GroupMeta) (dir : SortOrder)
    (a b : Entry) : Bool :=
  match dir with
  | .ASC  => keyLe (sortKey c agg a) (sortKey c agg b)
  | .DESC => keyLe (sortKey c agg b) (sortKey c agg a)

/-- Stable insertion into a sorted list: `x` goes before the first
    element it is `le`-below-or-tied-with that it precedes in the
    original list order. -/
def pyInsert (le : Entry → Entry → Bool) (x : Entry) : List Entry → List Entry
  | [] => [x]
  | y :: ys => if le x y then x :: y :: ys else y :: pyInsert le x ys

/-- Stable sort (insertion sort).  Python's `list.sort` is stable; for
    a total preorder `le` the stable sorted permutation is unique, so
    this computes exactly what `list.sort` produces. -/
def pySort (le : Entry → Entry → Bool) : List Entry → List Entry
  | [] => []
  | x :: xs => pyInsert le x (pySort le xs)

/-- `sort_global_entrylist(order_by, sort_order)` (lines 269-309), with
    the global list passed explicitly: build the aggregates from the
    list, then stable-sort by the chosen key, reversed for `DESC`. -/
def sort_global_entrylist (order_by : Criterion) (sort_order : SortOrder)
    (l : List Entry) : List Entry :=
  pySort (entryLe order_by (buildAgg l) sort_order) l

/-! ## PersistentCatalogStore: the `recordings` table (lines 487-611)

The sqlite `recordings` table is a list of rows in insertion order;
`file_basename` is its PRIMARY KEY, so at most one row per basename can
ever exist and the `rowcount <= 1` assertion of `db_remove_rec` never
fires. -/

/-- `db_load_rec` (lines 487-518): point lookup by basename
    (`fetchone` on a primary-key equality). -/
def db_load_rec (db : List Recording) (basename : String) : Option Recording :=
  db.find? (fun r => r.file_basename == basename)

/-- `db_remove_rec` (lines 633-642): delete by basename. -/
def db_remove_rec (db : List Recording) (rec : Recording) : List Recording :=
  db.filter (fun x => !(x.file_basename == rec.file_basename))

/-- `db_save_rec` (lines 590-611): delete-then-insert upsert. -/
def db_save_rec (db : List Recording) (rec : Recording) : List Recording :=
  db_remove_rec db rec ++ [rec]

/-- `db_load_rec_mastered_all` (lines 552-588) composed with
    `RecordingFactory.from_database_mastered_all` (lines 192-201):
    every mastered row, with `basepath` forced absent and `file_size`
    forced to 0.  (The Python split into a `None` result for an empty
    table and a `[]` fallback is observationally this one function.) -/
def from_database_mastered_all (db : List Recording) : List Recording :=
  (db.filter (fun r => r.is_mastered)).map
    (fun r => { r with basepath := none, file_size := 0 })

/-! ## EntryFactory and ReconciliationEngine (lines 137-201, 687-707) -/

/-- `os.path.basename` for the POSIX paths this program handles
    (the part after the last slash). -/
def basename (p : String) : String :=
  (pySplitOn "/" p).getLastD ""

/-- Everything one run reads from disk about one scanned recording
    file: its basepath (path minus the `.ts` extension), the size
    `os.stat` reports for the video file, the companion meta file's
    lines (`none` when the meta file is missing), and the four numbers
    the external video-metadata probe returns. -/
structure ScanFile where
  basepath  : String
  diskSize  : Int
  meta      : Option (List String)
  vDuration : Int
  vHeight   : Int
  vWidth    : Int
  vFps      : Int
deriving Repr, DecidableEq

/-- The fatal error conditions modelled by this embedding.
    `cacheInconsistency` is the `assert` of
    `RecordingFactory.from_database` (line 186): a cache hit whose
    stored size disagrees with the size measured from the live file. -/
inductive FatalError where
  | cacheInconsistency
deriving Repr, DecidableEq

/-- `remove_prefix` (lines 253-254): `re.sub` replaces the anchored,
    escaped prefix — when present — with a tilde; the prefix is
    matched literally, once, at the start only. -/
def remove_title (line pre : String) : String :=
  if pyStartsWith pre line then "~" ++ line.drop pre.length else line

/-- The `strptime`/`strftime` round trip of lines 166-168, turning a
    basename token `"YYYYMMDD HHMM"` into `"YYYY-MM-DD HH:MM"`.
    (`strptime` additionally validates the token and raises
    `ValueError` on malformed basenames; no claim exercises that, so
    only the reformatting is modelled.) -/
def reformat_timestamp (s : String) : String :=
  s.take 4 ++ "-" ++ (s.drop 4).take 2 ++ "-" ++ (s.drop 6).take 2 ++ " " ++
    (s.drop 9).take 2 ++ ":" ++ (s.drop 11).take 2

/-- `RecordingFactory.from_meta_file` (lines 138-177): `none` when the
    companion meta file is missing (skip with a warning); otherwise the
    fresh `Recording` built from the meta lines, the file system and
    the video probe.  `meta[i]` with fewer than three lines raises
    `IndexError` in Python; the `getD ""` here is exercised by no
    claim. -/
def from_meta_file (f : ScanFile) : Option Recording :=
  match f.meta with
  | none => none
  | some meta =>
    let bn := basename f.basepath
    let title := pyStrip (meta.getD 1 "")
    let channel := pyStrip ((pySplitOn ":" (meta.getD 0 "")).getLastD "")
    let toks := pySplitOn " - " bn
    let finalTitle := if title.length = 0 then toks.getD 2 "" else title
    some
      { basepath := some f.basepath
      , file_basename := bn
      , file_size := f.diskSize
      , epg_channel := if channel.length = 0 then toks.getD 1 "" else channel
      , epg_title := finalTitle
      , epg_description := pyStrip (remove_title (pyStrip (meta.getD 2 "")) title)
      , video_duration := f.vDuration
      , video_height := f.vHeight
      , video_width := f.vWidth
      , video_fps := f.vFps
      , is_good := false
      , is_dropped := false
      , is_mastered := false
      , groupkey := make_groupkey finalTitle
      , comment := ""
      , timestamp := reformat_timestamp (toks.getD 0 "") }

/-- `RecordingFactory.from_database` (lines 179-190): look the scanned
    basename up in the cache; on a miss return no recording; on a hit
    assert the stored size equals the measured size (mismatch is the
    fatal cache inconsistency) and attach the live basepath. -/
def from_database (db : List Recording) (f : ScanFile) :
    Except FatalError (Option Recording) :=
  match db_load_rec db (basename f.basepath) with
  | none => .ok none
  | some rec =>
    if rec.file_size = f.diskSize then
      .ok (some { rec with basepath := some f.basepath })
    else
      .error .cacheInconsistency

/-- The loop state of `process_recordings` (lines 687-707): the cache
    table (mutated by `db_save_rec` for fresh entries), the
    `global_entrylist` built so far, and the cache-hit counter. -/
structure ProcState where
  db      : List Recording
  entries : List Entry
  dbCount : Nat
deriving Repr, DecidableEq

/-- One iteration of the scan loop of `process_recordings`
    (lines 691-701): cache hit → append and count; cache miss with
    meta → save fresh entry and append; missing meta → skip. -/
def process_one (st : ProcState) (f : ScanFile) : Except FatalError ProcState :=
  match from_database st.db f with
  | .error e => .error e
  | .ok (some rec) =>
    .ok { st with entries := st.entries ++ [Entry.record rec]
                , dbCount := st.dbCount + 1 }
  | .ok none =>
    match from_meta_file f with
    | none => .ok st
    | some rec =>
      .ok { db := db_save_rec st.db rec
          , entries := st.entries ++ [Entry.record rec]
          , dbCount := st.dbCount }

/-- `process_recordings` (lines 687-707) over an initial cache `db0`:
    run the scan loop, then append every mastered row not already
    present in the collection (identity comparison via `entryEq`, the
    Python `in`/`__eq__`).  Returns the final `global_entrylist`, the
    final cache table and the cache-hit count. -/
def process_recordings (files : List ScanFile) (db0 : List Recording) :
    Except FatalError (List Entry × List Recording × Nat) :=
  match files.foldlM process_one { db := db0, entries := [], dbCount := 0 } with
  | .error e => .error e
  | .ok st =>
    let deleted := (from_database_mastered_all st.db).filter
      (fun m => !(st.entries.any (fun e => entryEq e (Entry.record m))))
    .ok (st.entries ++ deleted.map Entry.record, st.db, st.dbCount)

/-! ## Concrete sample entries used by counterexamples and witnesses -/

/-- A plain sample `Recording` (duplicated with field changes below). -/
def recBase : Recording :=
  { basepath := some "/media/rec/20240101 2000 - ARD - Alpha"
  , file_basename := "20240101 2000 - ARD - Alpha"
  , file_size := 1000
  , epg_channel := "ARD"
  , epg_title := "Alpha"
  , epg_description := "x"
  , video_duration := 3600
  , video_height := 720
  , video_width := 1280
  , video_fps := 25
  , is_good := false
  , is_dropped := false
  , is_mastered := false
  , groupkey := "alpha"
  , comment := ""
  , timestamp := "2024-01-01 20:00" }

/-- A plain sample `Download`. -/
def dlBase : Download :=
  { basepath := some "/media/dl/Beta (2020) [src=web] - WebRip"
  , file_basename := "Beta (2020) [src=web] - WebRip"
  , file_extension := ".mp4"
  , file_size := 2000
  , dl_source := "WebRip"
  , dl_title := "Beta"
  , dl_description := "2020 (src=web)"
  , video_duration := 5400
  , video_height := 1080
  , video_width := 1920
  , video_fps := 24
  , groupkey := "beta"
  , comment := "" }

/-- Size tie, groupkey "alpha". -/
def rTieA : Recording := recBase

/-- Size tie, groupkey "beta", distinct identity. -/
def rTieB : Recording :=
  { recBase with file_basename := "20240102 2000 - ZDF - Beta"
               , epg_title := "Beta", groupkey := "beta"
               , timestamp := "2024-01-02 20:00" }

/-- Size and groupkey tie, the later of two timestamps. -/
def rTieC : Recording :=
  { recBase with file_basename := "20240202 1000 - ARD - Gamma"
               , epg_title := "Gamma", groupkey := "gamma"
               , timestamp := "2024-02-02 10:00" }

/-- Size and groupkey tie, the earlier of two timestamps. -/
def rTieD : Recording :=
  { recBase with file_basename := "20240101 1000 - ARD - Gamma"
               , epg_title := "Gamma", groupkey := "gamma"
               , timestamp := "2024-01-01 10:00" }

/-- A non-mastered `Recording` sharing `dlBase`'s groupkey. -/
def rBeta : Recording :=
  { recBase with file_basename := "20240103 2000 - ZDF - Beta"
               , epg_title := "Beta", groupkey := "beta" }

/-! ## C1: the sort tie-break -/

/-- The character-list comparison is irreflexive. -/
theorem charListLt_irrefl (l : List Char) : charListLt l l = false := by
  induction l with
  | nil => rfl
  | cons c t ih => simp [charListLt, ih]

/-- The strict primary comparison is irreflexive. -/
theorem primLt_irrefl (p : Prim) : primLt p p = false := by
  cases p with
  | s a => simp [primLt, pyStrLt, charListLt_irrefl]
  | b a => cases a <;> rfl
  | i a => simp [primLt]
  | q a => simp [primLt]

/-- C1 counterexample: the claim's fixed secondary tie-break fails on
    the code in both of its parts.  (a) Under `size` descending, two
    entries of equal size come out in descending groupkey order — the
    `reverse=True` of `list.sort` flips the whole key tuple, tie-break
    included, not just the primary.  (b) There is no timestamp
    tie-break at all: two entries tying on size and groupkey with
    strictly descending timestamps keep their input order (stability),
    where the claim demands ascending timestamps. -/
theorem sort_desc_tiebreak_cex :
    rTieA.file_size = rTieB.file_size ∧
    pyStrLt rTieA.groupkey rTieB.groupkey = true ∧
    sort_global_entrylist .size .DESC [.record rTieA, .record rTieB] =
      [.record rTieB, .record rTieA] ∧
    rTieC.file_size = rTieD.file_size ∧
    rTieC.groupkey = rTieD.groupkey ∧
    pyStrLt rTieD.timestamp rTieC.timestamp = true ∧
    sort_global_entrylist .size .ASC [.record rTieC, .record rTieD] =
      [.record rTieC, .record rTieD] ∧
    Entry.record rTieC ≠ Entry.record rTieD := by
  decide

/-- C1 (amended): for every sort specification, whenever two entries tie
    on the primary criterion the comparison used by the ranking engine
    is decided by `groupkey` alone — ascending for `ASC`, but reversed
    (descending) for `DESC`, because `reverse=True` flips the whole key
    comparison; there is no timestamp component in the tie-break, and
    entries tying on groupkey as well keep their previous relative
    order by sort stability. -/
theorem sort_tiebreak_groupkey_only (c : Criterion) (agg : String → Option GroupMeta)
    (dir : SortOrder) (a b : Entry)
    (h : primKey c agg a = primKey c agg b) :
    entryLe c agg dir a b =
      (match dir with
       | .ASC  => pyStrLe a.groupkey b.groupkey
       | .DESC => pyStrLe b.groupkey a.groupkey) := by
  cases dir <;> simp [entryLe, sortKey, keyLe, h, primLt_irrefl]

/-- C1 witness: the amended tie-break statement evaluated on the
    concrete size-tied pair, descending direction. -/
theorem sort_tiebreak_groupkey_only_attained :
    entryLe .size (buildAgg [.record rTieA, .record rTieB]) .DESC
        (.record rTieA) (.record rTieB) =
      pyStrLe (Entry.record rTieB).groupkey (Entry.record rTieA).groupkey :=
  sort_tiebreak_groupkey_only .size (buildAgg [.record rTieA, .record rTieB])
    .DESC (.record rTieA) (.record rTieB) (by decide)

/-! ## C2: mastered recordings survive reconciliation -/

/-- A cache hit returns a row carrying the looked-up basename. -/
theorem db_load_rec_basename (db : List Recording) (bn : String) (r : Recording)
    (h : db_load_rec db bn = some r) : r.file_basename = bn := by
  have hp := List.find?_some h
  exact eq_of_beq hp

/-- A fresh entry carries the scanned file's basename. -/
theorem from_meta_file_basename (f : ScanFile) (r : Recording)
    (h : from_meta_file f = some r) : r.file_basename = basename f.basepath := by
  cases hm : f.meta with
  | none => rw [from_meta_file, hm] at h; cases h
  | some meta =>
    rw [from_meta_file, hm] at h
    cases h
    rfl

/-- A cache hit appended by the scan loop carries the scanned file's
    basename. -/
theorem from_database_some_basename (db : List Recording) (f : ScanFile)
    (r : Recording) (h : from_database db f = Except.ok (some r)) :
    r.file_basename = basename f.basepath := by
  unfold from_database at h
  cases hl : db_load_rec db (basename f.basepath) with
  | none => rw [hl] at h; cases h
  | some row =>
    rw [hl] at h
    dsimp only at h
    by_cases hs : row.file_size = f.diskSize
    · rw [if_pos hs] at h
      cases h
      exact db_load_rec_basename db (basename f.basepath) row hl
    · rw [if_neg hs] at h
      cases h

/-- Upsert keeps every row whose basename differs from the saved one. -/
theorem db_save_rec_mem_of_ne (db : List Recording) (r s : Recording)
    (h : r ∈ db) (hne : r.file_basename ≠ s.file_basename) :
    r ∈ db_save_rec db s := by
  exact List.mem_append_left _ (List.mem_filter.mpr ⟨h, by simpa using hne⟩)

/-- One scan-loop iteration keeps every cache row whose basename is not
    the scanned file's basename. -/
theorem process_one_db (st st' : ProcState) (f : ScanFile)
    (h : process_one st f = Except.ok st') (r : Recording) (hr : r ∈ st.db)
    (hne : r.file_basename ≠ basename f.basepath) : r ∈ st'.db := by
  unfold process_one at h
  cases hfd : from_database st.db f with
  | error e => rw [hfd] at h; cases h
  | ok o =>
    cases o with
    | some rec =>
      rw [hfd] at h
      cases h
      exact hr
    | none =>
      rw [hfd] at h
      cases hfm : from_meta_file f with
      | none => rw [hfm] at h; cases h; exact hr
      | some rec =>
        rw [hfm] at h
        cases h
        refine db_save_rec_mem_of_ne st.db r rec hr ?_
        rw [from_meta_file_basename f rec hfm]
        exact hne

/-- Every entry appended by one scan-loop iteration carries the scanned
    file's basename. -/
theorem process_one_entries (st st' : ProcState) (f : ScanFile)
    (h : process_one st f = Except.ok st') (e : Entry) (he : e ∈ st'.entries) :
    e ∈ st.entries ∨ e.file_basename = basename f.basepath := by
  unfold process_one at h
  cases hfd : from_database st.db f with
  | error err => rw [hfd] at h; cases h
  | ok o =>
    cases o with
    | some rec =>
      rw [hfd] at h
      cases h
      rcases List.mem_append.mp he with h1 | h1
      · exact Or.inl h1
      · right
        rw [List.mem_singleton.mp h1]
        exact from_database_some_basename st.db f rec hfd
    | none =>
      rw [hfd] at h
      cases hfm : from_meta_file f with
      | none => rw [hfm] at h; cases h; exact Or.inl he
      | some rec =>
        rw [hfm] at h
        cases h
        rcases List.mem_append.mp he with h1 | h1
        · exact Or.inl h1
        · right
          rw [List.mem_singleton.mp h1]
          exact from_meta_file_basename f rec hfm

/-- The whole scan loop keeps every cache row whose basename no scanned
    file carries. -/
theorem foldlM_ok_db (files : List ScanFile) :
    ∀ (st st' : ProcState), files.foldlM process_one st = Except.ok st' →
      ∀ r ∈ st.db, (∀ f ∈ files, r.file_basename ≠ basename f.basepath) →
        r ∈ st'.db := by
  induction files with
  | nil =>
    intro st st' h r hr _
    cases h
    exact hr
  | cons f fs ih =>
    intro st st' h r hr hall
    rw [List.foldlM_cons] at h
    cases h1 : process_one st f with
    | error e => rw [h1] at h; exact absurd h (by simp [Bind.bind, Except.bind])
    | ok st1 =>
      rw [h1] at h
      simp only [Bind.bind, Except.bind] at h
      have hr1 : r ∈ st1.db :=
        process_one_db st st1 f h1 r hr (hall f (List.mem_cons_self f fs))
      exact ih st1 st' h r hr1 (fun g hg => hall g (List.mem_cons_of_mem f hg))

/-- Every entry produced by the whole scan loop either was already there
    or carries the basename of one of the scanned files. -/
theorem foldlM_ok_entries (files : List ScanFile) :
    ∀ (st st' : ProcState), files.foldlM process_one st = Except.ok st' →
      ∀ e ∈ st'.entries,
        e ∈ st.entries ∨ ∃ f ∈ files, e.file_basename = basename f.basepath := by
  induction files with
  | nil =>
    intro st st' h e he
    cases h
    exact Or.inl he
  | cons f fs ih =>
    intro st st' h e he
    rw [List.foldlM_cons] at h
    cases h1 : process_one st f with
    | error err => rw [h1] at h; exact absurd h (by simp [Bind.bind, Except.bind])
    | ok st1 =>
      rw [h1] at h
      simp only [Bind.bind, Except.bind] at h
      rcases ih st1 st' h e he with h2 | ⟨g, hg, hbn⟩
      · rcases process_one_entries st st1 f h1 e h2 with h3 | h3
        · exact Or.inl h3
        · exact Or.inr ⟨f, List.mem_cons_self f fs, h3⟩
      · exact Or.inr ⟨g, List.mem_cons_of_mem f hg, hbn⟩

/-- C2: every `Recording` persisted with `is_mastered = true` whose file
    is absent from the scan still appears in the reconciled collection,
    with `basepath` forced to `none` and `file_size` forced to 0; it is
    never purged by reconciliation. -/
theorem mastered_survival (files : List ScanFile) (db0 : List Recording)
    (r : Recording) (res : List Entry × List Recording × Nat)
    (hr : r ∈ db0) (hm : r.is_mastered = true)
    (habs : ∀ f ∈ files, basename f.basepath ≠ r.file_basename)
    (hok : process_recordings files db0 = Except.ok res) :
    Entry.record { r with basepath := none, file_size := 0 } ∈ res.1 := by
  unfold process_recordings at hok
  cases hst : files.foldlM process_one { db := db0, entries := [], dbCount := 0 } with
  | error e => rw [hst] at hok; cases hok
  | ok st =>
    rw [hst] at hok
    cases hok
    have hrdb : r ∈ st.db :=
      foldlM_ok_db files { db := db0, entries := [], dbCount := 0 } st hst r hr
        (fun f hf => fun hEq => habs f hf hEq.symm)
    have hmm : ({ r with basepath := none, file_size := 0 } : Recording) ∈
        from_database_mastered_all st.db :=
      List.mem_map.mpr ⟨r, List.mem_filter.mpr ⟨hrdb, by simp [hm]⟩, rfl⟩
    have hnot : st.entries.any
        (fun e => entryEq e (Entry.record { r with basepath := none, file_size := 0 })) =
          false := by
      rw [List.any_eq_false]
      intro e he
      rcases foldlM_ok_entries files { db := db0, entries := [], dbCount := 0 } st
          hst e he with h0 | ⟨f, hf, hbn⟩
      · exact absurd h0 (List.not_mem_nil e)
      · cases e with
        | download d => simp [entryEq]
        | record r2 =>
          have hne : r2.file_basename ≠ r.file_basename := by
            rw [show r2.file_basename = (Entry.record r2).file_basename from rfl, hbn]
            exact habs f hf
          simp [entryEq, hne]
    refine List.mem_append_right _ (List.mem_map.mpr
      ⟨{ r with basepath := none, file_size := 0 }, List.mem_filter.mpr ⟨hmm, ?_⟩, rfl⟩)
    simp [hnot]

/-- A mastered sample row. -/
def rMast : Recording :=
  { basepath := some "/media/rec/20230505 2100 - ARD - Delta"
  , file_basename := "20230505 2100 - ARD - Delta"
  , file_size := 4000
  , epg_channel := "ARD"
  , epg_title := "Delta"
  , epg_description := "d"
  , video_duration := 1800
  , video_height := 1080
  , video_width := 1920
  , video_fps := 50
  , is_good := true
  , is_dropped := false
  , is_mastered := true
  , groupkey := "delta"
  , comment := ""
  , timestamp := "2023-05-05 21:00" }

/-- C2 witness: a mastered row in a one-row cache with an empty scan
    comes out of reconciliation with absent basepath and zero size. -/
theorem mastered_survival_attained :
    rMast ∈ [rMast] ∧ rMast.is_mastered = true ∧
    Entry.record { rMast with basepath := none, file_size := 0 } ∈
      (([Entry.record { rMast with basepath := none, file_size := 0 }],
        [rMast], 0) : List Entry × List Recording × Nat).1 :=
  ⟨List.mem_singleton_self _, rfl,
   mastered_survival [] [rMast] rMast
     ([Entry.record { rMast with basepath := none, file_size := 0 }], [rMast], 0)
     (List.mem_singleton_self _) rfl (fun f hf => absurd hf (List.not_mem_nil f)) rfl⟩

/-! ## C4: Download defaults under Recording-only flag sorts -/

/-- C4 counterexample: the claim predicts that under an `is_mastered`
    sort a Download is treated as NOT mastered, i.e. keyed like a
    non-mastered Recording.  In the code the Download branch is
    `else True`, giving `not True = False` — the key of a MASTERED
    Recording.  Concretely, a Download and a non-mastered Recording
    with the same groupkey get different primaries, and an ascending
    `attr_mastered` sort moves the Download ahead of the non-mastered
    Recording instead of leaving the tie in input order. -/
theorem download_mastered_default_cex :
    dlBase.groupkey = rBeta.groupkey ∧
    rBeta.is_mastered = false ∧
    primKey .attr_mastered (buildAgg [.download dlBase, .record rBeta]) (.download dlBase) ≠
      primKey .attr_mastered (buildAgg [.download dlBase, .record rBeta]) (.record rBeta) ∧
    sort_global_entrylist .attr_mastered .ASC [.record rBeta, .download dlBase] =
      [.download dlBase, .record rBeta] := by
  decide

/-- C4 (amended): under the Recording-only flag criteria every Download
    sorts with the fixed defaults good, not dropped, and MASTERED: its
    `attr_good` primary equals a Recording's exactly when that Recording
    is good, its `attr_dropped` primary equals a Recording's exactly
    when that Recording is not dropped, and its `attr_mastered` primary
    equals a Recording's exactly when that Recording IS mastered
    (matching the always-"GM" display attributes of Downloads); the
    defaults are total, so the two variants merge into one global order
    without error. -/
theorem download_flag_defaults (agg : String → Option GroupMeta)
    (d : Download) (r : Recording) :
    (primKey .attr_good agg (.download d) = primKey .attr_good agg (.record r) ↔
      r.is_good = true) ∧
    (primKey .attr_dropped agg (.download d) = primKey .attr_dropped agg (.record r) ↔
      r.is_dropped = false) ∧
    (primKey .attr_mastered agg (.download d) = primKey .attr_mastered agg (.record r) ↔
      r.is_mastered = true) := by
  cases hg : r.is_good <;> cases hd : r.is_dropped <;> cases hm : r.is_mastered <;>
    simp [primKey, hg, hd, hm]

/-! ## C10: the aggregate map is total on the sorted collection -/

/-- Each loop iteration raises the count of the touched group by one. -/
theorem updMeta_count (m : GroupMeta) (e : Entry) :
    (updMeta m e).count = m.count + 1 := by
  cases e <;> rfl

/-- Once a group is present in the aggregate dictionary it stays
    present, with a count that never decreases. -/
theorem aggStep_preserve (l : List Entry) :
    ∀ (m : String → Option GroupMeta) (k : String) (g : GroupMeta),
      m k = some g → ∃ g', (l.foldl aggStep m) k = some g' ∧ g.count ≤ g'.count := by
  induction l with
  | nil => exact fun _ _ g h => ⟨g, h, le_refl _⟩
  | cons e t ih =>
    intro m k g h
    rw [List.foldl_cons]
    by_cases hk : k = e.groupkey
    · subst hk
      have h2 : aggStep m e e.groupkey = some (updMeta g e) := by
        simp [aggStep, h]
      obtain ⟨g', hg', hle⟩ := ih (aggStep m e) e.groupkey (updMeta g e) h2
      refine ⟨g', hg', le_trans ?_ hle⟩
      rw [updMeta_count]
      exact Nat.le_succ _
    · have h2 : aggStep m e k = some g := by simp [aggStep, hk, h]
      exact ih (aggStep m e) k g h2

/-- The groupkey of every processed entry is present with count ≥ 1. -/
theorem buildAgg_mem (l : List Entry) :
    ∀ (m : String → Option GroupMeta) (e : Entry), e ∈ l →
      ∃ g, (l.foldl aggStep m) e.groupkey = some g ∧ 1 ≤ g.count := by
  induction l with
  | nil => intro _ e h; exact absurd h (List.not_mem_nil e)
  | cons a t ih =>
    intro m e he
    rw [List.foldl_cons]
    rcases List.mem_cons.mp he with rfl | ht
    · have h2 : aggStep m e e.groupkey =
          some (updMeta ((m e.groupkey).getD {}) e) := by
        simp [aggStep]
      obtain ⟨g', hg', hle⟩ := aggStep_preserve t (aggStep m e) e.groupkey _ h2
      refine ⟨g', hg', le_trans ?_ hle⟩
      rw [updMeta_count]
      exact Nat.le_add_left 1 _
    · exact ih (aggStep m a) e ht

/-- C10: whenever the ranking engine runs, every entry of the sorted
    collection has its groupkey present in the aggregate dictionary
    with a member count of at least one (the dictionary is built from
    the same list), so every aggregate lookup
    `groupkey_aggregates[e.groupkey]` succeeds and the `avg_size`
    division `sum_size / count` never divides by zero. -/
theorem aggregates_wellformed (l : List Entry) (e : Entry) (h : e ∈ l) :
    ∃ g, buildAgg l e.groupkey = some g ∧ 1 ≤ g.count ∧ ((g.count : ℚ) ≠ 0) := by
  obtain ⟨g, hg, hle⟩ := buildAgg_mem l (fun _ => none) e h
  exact ⟨g, hg, hle, Nat.cast_ne_zero.mpr (by omega)⟩

/-- C10 witness: the aggregate totality statement evaluated on a
    one-entry collection. -/
theorem aggregates_wellformed_attained :
    Entry.record recBase ∈ [Entry.record recBase] ∧
    ∃ g, buildAgg [Entry.record recBase] (Entry.record recBase).groupkey = some g ∧
      1 ≤ g.count ∧ ((g.count : ℚ) ≠ 0) :=
  ⟨List.mem_singleton_self _,
   aggregates_wellformed [Entry.record recBase] (Entry.record recBase)
     (List.mem_singleton_self _)⟩

/-! ## C3: upsert is a full replace -/

/-- `find?` skips a leading block on which the predicate fails. -/
theorem find?_skip_left {α : Type} (p : α → Bool) (l1 l2 : List α)
    (h : ∀ x ∈ l1, p x = false) : (l1 ++ l2).find? p = l2.find? p := by
  induction l1 with
  | nil => rfl
  | cons x t ih =>
    rw [List.cons_append,
      List.find?_cons_of_neg _ (by simp [h x (List.mem_cons_self x t)])]
    exact ih (fun y hy => h y (List.mem_cons_of_mem x hy))

/-- C3: `db_save_rec` is delete-then-insert, so saving an identity twice
    fully replaces the first row: after the two saves, the table holds
    exactly one row with that basename — the second version — and a
    point load returns it with every field (comment included) from the
    second save; nothing of the first row survives. -/
theorem upsert_full_replace (db : List Recording) (a b : Recording)
    (hid : b.file_basename = a.file_basename) :
    db_load_rec (db_save_rec (db_save_rec db a) b) b.file_basename = some b ∧
    (db_save_rec (db_save_rec db a) b).filter
      (fun r => r.file_basename == b.file_basename) = [b] := by
  have hpre : ∀ x ∈ db_remove_rec (db_save_rec db a) b,
      (x.file_basename == b.file_basename) = false := by
    intro x hx
    have h2 := (List.mem_filter.mp hx).2
    simpa using h2
  constructor
  · show (db_remove_rec (db_save_rec db a) b ++ [b]).find?
        (fun r => r.file_basename == b.file_basename) = some b
    rw [find?_skip_left _ _ _ hpre]
    simp [List.find?]
  · show (db_remove_rec (db_save_rec db a) b ++ [b]).filter
        (fun r => r.file_basename == b.file_basename) = [b]
    rw [List.filter_append, List.filter_eq_nil_iff.mpr
      (fun x hx => by simp [hpre x hx])]
    simp

/-- The upsert-replace scenario's second version: same identity as
    `recBase` (whose comment is empty) with comment "x". -/
def recCB : Recording := { recBase with comment := "x" }

/-- C3 witness: the spec scenario — save with empty comment, save the
    same identity with comment "x", load back exactly one row carrying
    comment "x". -/
theorem upsert_full_replace_attained :
    recCB.file_basename = recBase.file_basename ∧ recBase.comment = "" ∧
    recCB.comment = "x" ∧
    db_load_rec (db_save_rec (db_save_rec [] recBase) recCB) recCB.file_basename =
      some recCB ∧
    (db_save_rec (db_save_rec [] recBase) recCB).filter
      (fun r => r.file_basename == recCB.file_basename) = [recCB] :=
  ⟨rfl, rfl, rfl,
   (upsert_full_replace [] recBase recCB rfl).1,
   (upsert_full_replace [] recBase recCB rfl).2⟩

/-! ## C6: cache hits are size-checked, mismatch is fatal -/

/-- C6: on a cache hit, a stored size that disagrees with the size
    measured from the live file makes the load fail fast with the fatal
    cache-inconsistency error (never a silent repair); agreeing sizes
    return the cached row with the live basepath attached, and the
    reconciliation loop counts it as a cache hit. -/
theorem cache_hit_size_check (db : List Recording) (f : ScanFile) (r : Recording)
    (h : db_load_rec db (basename f.basepath) = some r) :
    (r.file_size ≠ f.diskSize →
      from_database db f = Except.error FatalError.cacheInconsistency) ∧
    (r.file_size = f.diskSize →
      from_database db f = Except.ok (some { r with basepath := some f.basepath }) ∧
      ∀ (es : List Entry) (n : Nat),
        process_one { db := db, entries := es, dbCount := n } f =
          Except.ok { db := db
                    , entries := es ++ [Entry.record { r with basepath := some f.basepath }]
                    , dbCount := n + 1 }) := by
  constructor
  · intro hne
    unfold from_database
    rw [h]
    dsimp only
    rw [if_neg hne]
  · intro heq
    have h1 : from_database db f =
        Except.ok (some { r with basepath := some f.basepath }) := by
      unfold from_database
      rw [h]
      dsimp only
      rw [if_pos heq]
    refine ⟨h1, fun es n => ?_⟩
    unfold process_one
    dsimp only
    rw [h1]

/-- A scan record hitting `recBase`'s cache row with the matching size. -/
def scanHit : ScanFile :=
  { basepath := "/media/rec/20240101 2000 - ARD - Alpha"
  , diskSize := 1000
  , meta := none
  , vDuration := 3600
  , vHeight := 720
  , vWidth := 1280
  , vFps := 25 }

/-- C6 witness: the matching-size branch evaluated on a concrete
    one-row cache and its scanned file. -/
theorem cache_hit_size_check_attained :
    from_database [recBase] scanHit =
      Except.ok (some { recBase with basepath := some scanHit.basepath }) ∧
    process_one { db := [recBase], entries := [], dbCount := 0 } scanHit =
      Except.ok { db := [recBase]
                , entries := [Entry.record { recBase with basepath := some scanHit.basepath }]
                , dbCount := 1 } := by
  have h := (cache_hit_size_check [recBase] scanHit recBase rfl).2 rfl
  exact ⟨h.1, h.2 [] 0⟩

/-! ## C7: mutual exclusion of drop and mastered marks -/

/-- `update_attribute` (lines 311-330), with the state passed
    explicitly: the first component is the selection after the
    conditional in-place updates; the second lists exactly the entries
    that passed `check` and were therefore persisted via the db save
    (the GUI row refresh is display-only). -/
def update_attribute {α : Type} (entries : List α) (check : α → Bool)
    (upd : α → α) : List α × List α :=
  (entries.map (fun e => if check e then upd e else e),
   (entries.filter check).map upd)

/-- The drop-mark call of `main` (lines 867-869):
    `check = not is_mastered`, `update` sets `is_dropped`. -/
def drop_mark (sel : List Recording) : List Recording × List Recording :=
  update_attribute sel (fun r => !r.is_mastered) (fun r => { r with is_dropped := true })

/-- The mastered-mark call of `main` (lines 901-903):
    `check = not is_dropped`, `update` sets `is_mastered`. -/
def mastered_mark (sel : List Recording) : List Recording × List Recording :=
  update_attribute sel (fun r => !r.is_dropped) (fun r => { r with is_mastered := true })

/-- C7: in any batch `applyIf` mutation, an already-mastered entry is
    left entirely unchanged (and not re-persisted) by a drop-mark call,
    and an already-dropped entry is left entirely unchanged by a
    mastered-mark call; the failing precondition is a silent per-entry
    no-op, not a batch error — the rest of the selection is still
    processed, entry by entry. -/
theorem mutation_mutual_exclusion (sel : List Recording) (i : Nat) (r : Recording)
    (hi : sel[i]? = some r) :
    (r.is_mastered = true →
      (drop_mark sel).1[i]? = some r ∧ r ∉ (drop_mark sel).2) ∧
    (r.is_dropped = true →
      (mastered_mark sel).1[i]? = some r ∧ r ∉ (mastered_mark sel).2) := by
  constructor
  · intro hm
    constructor
    · simp only [drop_mark, update_attribute, List.getElem?_map, hi, Option.map_some']
      simp [hm]
    · intro hmem
      rcases List.mem_map.mp hmem with ⟨x, hx, hxr⟩
      have hxm : x.is_mastered = false := by
        have h2 := (List.mem_filter.mp hx).2
        simpa using h2
      have h3 : r.is_mastered = x.is_mastered := by rw [← hxr]
      rw [hm, hxm] at h3
      cases h3
  · intro hd
    constructor
    · simp only [mastered_mark, update_attribute, List.getElem?_map, hi, Option.map_some']
      simp [hd]
    · intro hmem
      rcases List.mem_map.mp hmem with ⟨x, hx, hxr⟩
      have hxd : x.is_dropped = false := by
        have h2 := (List.mem_filter.mp hx).2
        simpa using h2
      have h3 : r.is_dropped = x.is_dropped := by rw [← hxr]
      rw [hd, hxd] at h3
      cases h3

/-- A sample entry that is both mastered and dropped, exercising both
    halves of the mutual-exclusion statement. -/
def rBoth : Recording := { recBase with is_mastered := true, is_dropped := true }

/-- C7 witness: both no-op halves evaluated on a one-entry selection. -/
theorem mutation_mutual_exclusion_attained :
    ((drop_mark [rBoth]).1[0]? = some rBoth ∧ rBoth ∉ (drop_mark [rBoth]).2) ∧
    ((mastered_mark [rBoth]).1[0]? = some rBoth ∧ rBoth ∉ (mastered_mark [rBoth]).2) := by
  have h := mutation_mutual_exclusion [rBoth] 0 rBoth rfl
  exact ⟨h.1 rfl, h.2 rfl⟩

/-! ## C8: description and channel from the companion meta file -/

/-- A concrete scanned file with a three-line companion meta file whose
    third line begins with the title. -/
def scanMeta : ScanFile :=
  { basepath := "/media/rec/20240102 2015 - ARD - Tagesschau"
  , diskSize := 500
  , meta := some ["eDVB service:Das Erste\n", "Tagesschau\n",
                  "Tagesschau Nachrichten des Tages\n"]
  , vDuration := 900
  , vHeight := 720
  , vWidth := 1280
  , vFps := 25 }

/-- C8 counterexample: the claim predicts the description is line 3
    with the leading title REMOVED (then trimmed), i.e.
    "Nachrichten des Tages" here.  The code's `remove_prefix`
    substitutes a tilde for the title (`re.sub(...,"~", line)`), so the
    built description is "~ Nachrichten des Tages". -/
theorem meta_description_tilde_cex :
    (from_meta_file scanMeta).map (fun r => r.epg_description) =
      some "~ Nachrichten des Tages" ∧
    (from_meta_file scanMeta).map (fun r => r.epg_description) ≠
      some "Nachrichten des Tages" := by
  decide

/-- C8 (amended): for every meta file whose stripped third line begins
    with the stripped second line (the title), the built description is
    the third line with the leading title REPLACED BY "~" and the
    result trimmed; and when line 1 has a nonempty part after its last
    ':', the channel is that part, trimmed. -/
theorem meta_description_channel (f : ScanFile) (l0 l1 l2 : String)
    (rest : List String) (hmeta : f.meta = some (l0 :: l1 :: l2 :: rest))
    (hpre : pyStartsWith (pyStrip l1) (pyStrip l2) = true)
    (hch : pyStrip ((pySplitOn ":" l0).getLastD "") ≠ "") :
    ∃ r, from_meta_file f = some r ∧
      r.epg_description =
        pyStrip ("~" ++ (pyStrip l2).drop (pyStrip l1).length) ∧
      r.epg_channel = pyStrip ((pySplitOn ":" l0).getLastD "") := by
  refine ⟨_, by rw [from_meta_file, hmeta], ?_, ?_⟩
  · dsimp only
    simp only [List.getD_cons_zero, List.getD_cons_succ]
    rw [remove_title, if_pos hpre]
  · dsimp only
    simp only [List.getD_cons_zero, List.getD_cons_succ]
    have hch' : ¬ (pyStrip ((pySplitOn ":" l0).getLastD "")).length = 0 := by
      intro hlen
      apply hch
      have h0 : (pyStrip ((pySplitOn ":" l0).getLastD "")).data = [] :=
        List.length_eq_zero.mp hlen
      calc pyStrip ((pySplitOn ":" l0).getLastD "")
          = String.mk (pyStrip ((pySplitOn ":" l0).getLastD "")).data := rfl
        _ = String.mk [] := by rw [h0]
        _ = "" := rfl
    rw [if_neg hch']

/-- C8 witness: the amended description/channel statement evaluated on
    the concrete meta file. -/
theorem meta_description_channel_attained :
    ∃ r, from_meta_file scanMeta = some r ∧
      r.epg_description =
        pyStrip ("~" ++ (pyStrip "Tagesschau Nachrichten des Tages\n").drop
          (pyStrip "Tagesschau\n").length) ∧
      r.epg_channel = pyStrip ((pySplitOn ":" "eDVB service:Das Erste\n").getLastD "") :=
  meta_description_channel scanMeta "eDVB service:Das Erste\n" "Tagesschau\n"
    "Tagesschau Nachrichten des Tages\n" [] rfl (by decide) (by decide)

/-! ## C9: entry identity -/

/-- C9: entry equality depends only on `file_basename` within one
    variant, a `Recording` never equals a `Download` in either
    direction, and the membership test the reconciliation dedup uses
    (`rec not in global_entrylist`) therefore resolves purely by
    identity: it succeeds exactly when the list holds a `Recording`
    with the same basename. -/
theorem entry_identity_eq (a b : Recording) (c d : Download) (l : List Entry) :
    (entryEq (.record a) (.record b) = true ↔ a.file_basename = b.file_basename) ∧
    (entryEq (.download c) (.download d) = true ↔ c.file_basename = d.file_basename) ∧
    entryEq (.record a) (.download c) = false ∧
    entryEq (.download c) (.record a) = false ∧
    (l.any (fun e => entryEq e (.record a)) = true ↔
      ∃ r2 : Recording, Entry.record r2 ∈ l ∧ r2.file_basename = a.file_basename) := by
  refine ⟨by simp [entryEq], by simp [entryEq], rfl, rfl, ?_⟩
  rw [List.any_eq_true]
  constructor
  · rintro ⟨e, he, heq⟩
    cases e with
    | record r2 =>
      exact ⟨r2, he, by simpa [entryEq] using heq⟩
    | download d2 => simp [entryEq] at heq
  · rintro ⟨r2, hr2, hbn⟩
    exact ⟨Entry.record r2, hr2, by simp [entryEq, hbn]⟩

end Dvr
